import Mathlib

set_option maxHeartbeats 1000000
set_option maxRecDepth 8192

/-!
Shallow embedding of the comments-based OOXML template engine found in
`server/processor.py`, `server/parser.py`, `server/storage.py`,
`server/models.py` and `server/constants.py`.

Python runtime values that flow through the engine (strings, booleans,
`None`) are modelled by `PyVal`.  Python string operations are modelled by
executable, structurally recursive Lean functions over `List Char`
(character lists match Python's character-indexed strings, and structural
recursion keeps every definition evaluable by the kernel), including the
`s[-0:]` slicing quirk that matters for `_pad_text_to_width`.
XML element trees (lxml) are modelled by the `Xml` inductive; in-place
mutation of a tree is modelled by functions returning the updated tree.
-/

/-- Model of the Python values the engine passes around: `str`, `bool`
and `None`.  JSON numbers never reach the code paths treated here. -/
inductive PyVal where
  | str (s : String)
  | bool (b : Bool)
  | pynone
deriving DecidableEq

/-- Python truthiness (`bool(x)`) for the values of `PyVal`. -/
def pyTruthy : PyVal → Bool
  | .str s => s ≠ ""
  | .bool b => b
  | .pynone => false

/-- Python `str(x)` for the values of `PyVal`. -/
def pyStr : PyVal → String
  | .str s => s
  | .bool b => if b then "True" else "False"
  | .pynone => "None"

/-- The whitespace characters Python string methods strip and split on
(ASCII subset; the documents at hand contain no exotic Unicode spaces). -/
def isPyWs (c : Char) : Bool :=
  c == ' ' || c == '\t' || c == '\n' || c == '\r' || c == '\x0b' || c == '\x0c'

/-- Python `str.lstrip()` on a character list. -/
def listTrimLeft (l : List Char) : List Char := l.dropWhile isPyWs

/-- Python `str.rstrip()` on a character list. -/
def listTrimRight (l : List Char) : List Char :=
  (l.reverse.dropWhile isPyWs).reverse

/-- Python `str.strip()`. -/
def pyTrim (s : String) : String :=
  String.mk (listTrimRight (listTrimLeft s.data))

/-- Python `str.lstrip()`. -/
def pyTrimLeft (s : String) : String := String.mk (listTrimLeft s.data)

/-- Python `str.rstrip()`. -/
def pyTrimRight (s : String) : String := String.mk (listTrimRight s.data)

/-- Python `len(s)` (a character count). -/
def pyLen (s : String) : Nat := s.data.length

/-- Python `s[:k]` for `k ≥ 0`. -/
def pyTake (s : String) (k : Nat) : String := String.mk (s.data.take k)

/-- Python `s[k:]` for `k ≥ 0`. -/
def pyDrop (s : String) (k : Nat) : String := String.mk (s.data.drop k)

/-- Python `s[:-k]` for `k > 0`, and `s` itself for `k = 0` is NOT this
function: the engine only uses it with the positive delimiter length. -/
def pyDropRight (s : String) (k : Nat) : String :=
  String.mk (s.data.take (s.data.length - k))

/-- Python `s[-k:]`.  For `k = 0` this is the WHOLE string (the `-0`
slicing quirk); for `k > 0` it is the last `k` characters. -/
def pySliceLast (s : String) (k : Nat) : String :=
  if k = 0 then s else pyDrop s (s.length - k)

/-- Python `s.endswith(t)`. -/
def pyEndsWith (s t : String) : Bool := t.data.isSuffixOf s.data

/-- Python `s.startswith(t)`. -/
def pyStartsWith (s t : String) : Bool := t.data.isPrefixOf s.data

/-- Python `c in s` for a single character. -/
def pyContainsChar (s : String) (c : Char) : Bool := s.data.contains c

/-- First character index of `sub` inside a character list (Python
`str.find`, restricted to a found/not-found answer with position). -/
def firstIdxSub (sub : List Char) : List Char → Option Nat
  | [] => if sub = [] then some 0 else none
  | c :: t =>
    if sub.isPrefixOf (c :: t) then some 0
    else (firstIdxSub sub t).map (· + 1)

/-- Python `sub in s` on strings. -/
def containsSub (s sub : String) : Bool := (firstIdxSub sub.data s.data).isSome

/-- Fuelled worker for `listSplitOn`; the fuel starts at the list length,
which suffices because every step consumes at least one character. -/
def listSplitOnGo (sep : List Char) : Nat → List Char → List Char → List (List Char)
  | _, [], acc => [acc.reverse]
  | 0, l, acc => [acc.reverse ++ l]
  | fuel + 1, c :: rest, acc =>
    if sep.isPrefixOf (c :: rest) then
      acc.reverse :: listSplitOnGo sep fuel (rest.drop (sep.length - 1)) []
    else listSplitOnGo sep fuel rest (c :: acc)

/-- Python `s.split(sep)` for a non-empty separator (all the engine's
separators are non-empty; Python raises on an empty one). -/
def pySplitOn (s sep : String) : List String :=
  if sep.data.isEmpty then [s]
  else (listSplitOnGo sep.data s.data.length s.data []).map String.mk

/-- Split a character list at every character satisfying `p`. -/
def listSplitPredGo (p : Char → Bool) : List Char → List Char → List (List Char)
  | [], acc => [acc.reverse]
  | c :: rest, acc =>
    if p c then acc.reverse :: listSplitPredGo p rest []
    else listSplitPredGo p rest (c :: acc)

/-- Python `s.split()` with no argument: split on whitespace runs,
dropping empty pieces. -/
def pySplitWs (s : String) : List String :=
  ((listSplitPredGo isPyWs s.data []).map String.mk).filter (· ≠ "")

/-- Fuelled worker for `pyReplace`. -/
def listReplaceGo (pat rep : List Char) : Nat → List Char → List Char
  | _, [] => []
  | 0, l => l
  | fuel + 1, c :: rest =>
    if pat.isPrefixOf (c :: rest) then
      rep ++ listReplaceGo pat rep fuel (rest.drop (pat.length - 1))
    else c :: listReplaceGo pat rep fuel rest

/-- Python `s.replace(pat, rep)` for a non-empty pattern (every pattern
the engine passes is non-empty). -/
def pyReplace (s pat rep : String) : String :=
  if pat.data.isEmpty then s
  else String.mk (listReplaceGo pat.data rep.data s.data.length s.data)

/-- Python `sep.join(parts)` for `sep = ""` / string accumulation loops. -/
def strJoin (l : List String) : String := l.foldl (fun a b => a ++ b) ""

/-- Python `sep.join(parts)`. -/
def joinSep (sep : String) : List String → String
  | [] => ""
  | [x] => x
  | x :: y :: rest => x ++ sep ++ joinSep sep (y :: rest)

/-- A string of `n` copies of `c` (Python `c * n` for `n ≥ 0`). -/
def strRepeat (c : Char) (n : Nat) : String := String.mk (List.replicate n c)

/-- Python `c * n` where `n` may be a negative int (gives `""`). -/
def pyRepeatInt (c : Char) (n : Int) : String :=
  if n ≤ 0 then "" else strRepeat c n.toNat

/-- Python `str.lower` restricted to the alphabets the mini-language uses:
ASCII letters and the Cyrillic block (А..Я, Ё). -/
def pyLowerChar (c : Char) : Char :=
  if 0x41 ≤ c.toNat ∧ c.toNat ≤ 0x5A then Char.ofNat (c.toNat + 0x20)
  else if 0x410 ≤ c.toNat ∧ c.toNat ≤ 0x42F then Char.ofNat (c.toNat + 0x20)
  else if c.toNat = 0x401 then Char.ofNat 0x451
  else c

/-- Python `str.upper` on a character, same alphabets as `pyLowerChar`. -/
def pyUpperChar (c : Char) : Char :=
  if 0x61 ≤ c.toNat ∧ c.toNat ≤ 0x7A then Char.ofNat (c.toNat - 0x20)
  else if 0x430 ≤ c.toNat ∧ c.toNat ≤ 0x44F then Char.ofNat (c.toNat - 0x20)
  else if c.toNat = 0x451 then Char.ofNat 0x401
  else c

/-- Whether a character is cased for the purposes of `str.title`
(ASCII or Cyrillic letter). -/
def isCasedChar (c : Char) : Bool :=
  (0x41 ≤ c.toNat && c.toNat ≤ 0x5A) || (0x61 ≤ c.toNat && c.toNat ≤ 0x7A) ||
  (0x410 ≤ c.toNat && c.toNat ≤ 0x44F) || c.toNat == 0x401 || c.toNat == 0x451

/-- Python `str.lower` lifted to strings. -/
def pyLower (s : String) : String := String.mk (s.data.map pyLowerChar)

/-- Worker for `pyTitle`: the boolean records whether the previous
character was cased. -/
def pyTitleGo : Bool → List Char → List Char
  | _, [] => []
  | prevCased, c :: cs =>
    if isCasedChar c then
      (if prevCased then pyLowerChar c else pyUpperChar c) :: pyTitleGo true cs
    else c :: pyTitleGo false cs

/-- Python `str.title`: the first character of every run of cased
characters is uppercased, the rest lowercased. -/
def pyTitle (s : String) : String := String.mk (pyTitleGo false s.data)

/-- Lookup in an association list keyed by strings (Python `dict` read). -/
def alistLookup {α : Type} (l : List (String × α)) (k : String) : Option α :=
  match l.find? (fun p => p.1 == k) with
  | some p => some p.2
  | none => none

/-- Update-or-append in an association list (Python `d[k] = v`): an
existing key keeps its position, a new key is appended. -/
def alistUpsert {α : Type} (l : List (String × α)) (k : String) (v : α) :
    List (String × α) :=
  match l with
  | [] => [(k, v)]
  | p :: rest =>
    if p.1 == k then (k, v) :: rest else p :: alistUpsert rest k v

/-- `server/models.py` `VariableType`. -/
inductive VariableType where
  | TEXT
  | CHECKBOX
  | CHECKBOX_EXISTING
  | DATE
deriving DecidableEq

/-- Python `VariableType(s)`: `none` models the raised `ValueError`. -/
def variableTypeOfString : String → Option VariableType
  | "text" => some .TEXT
  | "checkbox" => some .CHECKBOX
  | "checkbox_existing" => some .CHECKBOX_EXISTING
  | "date" => some .DATE
  | _ => none

/-- Python `VariableType.value`. -/
def variableTypeValue : VariableType → String
  | .TEXT => "text"
  | .CHECKBOX => "checkbox"
  | .CHECKBOX_EXISTING => "checkbox_existing"
  | .DATE => "date"

/-- `server/constants.py`: the comment mini-language delimiter, the
two-character string of two backslashes (a Python raw string). -/
def VARIABLE_DEFINITION_DELIMITER : String := "\\\\"

/-- Result record of `CommentsParser._extract_metadata`.  The embedding
carries every key of the Python dict that the rest of the engine reads. -/
structure Metadata where
  type : String
  default : PyVal
  display_name : String
  variable_name : String
  description : String
  date_format_mappings : Option String
  is_reuse : Bool
deriving DecidableEq

/-- The initial metadata dict built at the top of `_extract_metadata`. -/
def initMetadata : Metadata :=
  { type := "text", default := .str "", display_name := "",
    variable_name := "", description := "", date_format_mappings := none,
    is_reuse := false }

/-- The positional branch of `_extract_metadata`
(`[kind, name, default, dateFormatMapping?]` with kind normalization and
the checkbox truthy-token set). -/
def positionalMetadata (comment_text : String) : Metadata :=
  let parts := (pySplitOn comment_text VARIABLE_DEFINITION_DELIMITER).map pyTrim
  let p0 := parts.getD 0 ""
  let m0 := if p0 ≠ "" then { initMetadata with type := pyLower p0 } else initMetadata
  let p1 := parts.getD 1 ""
  let m1 :=
    if p1 ≠ "" then
      { m0 with
        variable_name := p1,
        display_name := pyTitle (pyReplace p1 "_" " ") }
    else m0
  let p2 := parts.getD 2 ""
  let m2 := if p2 ≠ "" then { m1 with default := .str p2 } else m1
  let p3 := parts.getD 3 ""
  let m3 := if p3 ≠ "" then { m2 with date_format_mappings := some p3 } else m2
  let m4 :=
    if m3.type = "чекбокс" ∨ m3.type = "checkbox" ∨ m3.type = "флажок" then
      let truthy := pyLower (pyStr m3.default)
      { m3 with
        type := "checkbox",
        default := .bool (truthy == "да" || truthy == "yes" || truthy == "true" ||
                          truthy == "1" || truthy == "✓" || truthy == "[x]") }
    else if m3.type = "дата" ∨ m3.type = "date" then { m3 with type := "date" }
    else { m3 with type := "text" }
  let name_for_desc := if m4.variable_name ≠ "" then m4.variable_name else p0
  { m4 with
    is_reuse := false,
    description := pyTitle m4.type ++ ": " ++ name_for_desc }

/-- `CommentsParser._extract_metadata`: reuse reference (body ending in
the delimiter), reuse-with-date-format (two fields, second containing
`=`), else the positional grammar. -/
def extractMetadata (comment_text : String) : Metadata :=
  if pyEndsWith comment_text VARIABLE_DEFINITION_DELIMITER then
    let var_name := pyTrim (pyDropRight comment_text (pyLen VARIABLE_DEFINITION_DELIMITER))
    { initMetadata with
      variable_name := var_name,
      display_name := pyTitle (pyReplace var_name "_" " "),
      type := "text",
      default := .str "",
      description := pyTitle "text" ++ ": " ++ var_name,
      is_reuse := true }
  else
    match pySplitOn comment_text VARIABLE_DEFINITION_DELIMITER with
    | [l0, l1] =>
      let var_name := pyTrim l0
      let potential := pyTrim l1
      if pyContainsChar potential '=' &&
         ! pyEndsWith var_name VARIABLE_DEFINITION_DELIMITER then
        { initMetadata with
          variable_name := var_name,
          display_name := pyTitle (pyReplace var_name "_" " "),
          date_format_mappings := some potential,
          is_reuse := true,
          type := "date" }
      else positionalMetadata comment_text
    | _ => positionalMetadata comment_text

example : (extractMetadata "agree\\\\").is_reuse = true := by decide
example : (extractMetadata "agree\\\\").variable_name = "agree" := by decide
example : (extractMetadata "checkbox\\\\agree\\\\да").type = "checkbox" := by decide
example : (extractMetadata "checkbox\\\\agree\\\\да").default = .bool true := by decide
example : (extractMetadata "text\\\\name\\\\abc").default = .str "abc" := by decide
example : (extractMetadata "date\\\\dob\\\\\\\\DD=день MM=месяц").date_format_mappings
    = some "DD=день MM=месяц" := by decide

/-- Model of an lxml element: tag, attributes (in document order), the
element's own text, and child elements.  Namespaced Python names such as
`W+"t"` or `W+"val"` are rendered as the short forms `"t"` / `"w:val"`. -/
inductive Xml where
  | node (tag : String) (attrs : List (String × String))
         (text : Option String) (children : List Xml)

/-- Tag accessor. -/
def Xml.tag : Xml → String
  | .node t _ _ _ => t

/-- Attribute-list accessor. -/
def Xml.attrs : Xml → List (String × String)
  | .node _ a _ _ => a

/-- Text accessor (lxml `elem.text`). -/
def Xml.text : Xml → Option String
  | .node _ _ tx _ => tx

/-- Children accessor. -/
def Xml.children : Xml → List Xml
  | .node _ _ _ cs => cs

/-- lxml `elem.get(k)`. -/
def attrOf (x : Xml) (k : String) : Option String :=
  (x.attrs.find? (fun p => p.1 == k)).map (·.2)

/-- lxml `elem.set(k, v)`: update an existing attribute in place or
append a new one. -/
def setAttr (k v : String) : Xml → Xml
  | .node t a tx cs => .node t (alistUpsert a k v) tx cs

/-- lxml `elem.find(tag)` (direct children only). -/
def firstChildWithTag (tag : String) (x : Xml) : Option Xml :=
  x.children.find? (fun c => c.tag == tag)

mutual
/-- lxml `elem.find(".//tag")`: first proper descendant with the given
tag, in document order. -/
def findDesc (tag : String) : Xml → Option Xml
  | .node _ _ _ cs => findDescL tag cs

/-- Worker of `findDesc` over a sibling list: each element is visited
before its own subtree's remainder, subtrees before later siblings. -/
def findDescL (tag : String) : List Xml → Option Xml
  | [] => none
  | c :: cs =>
    if c.tag == tag then some c
    else
      match findDesc tag c with
      | some r => some r
      | none => findDescL tag cs
end

mutual
/-- lxml `root.find(".//tag[@w:id=cid]")`: first descendant with the
given tag carrying attribute `w:id = cid`. -/
def findDescId (tag cid : String) : Xml → Option Xml
  | .node _ _ _ cs => findDescIdL tag cid cs

/-- Worker of `findDescId` over a sibling list. -/
def findDescIdL (tag cid : String) : List Xml → Option Xml
  | [] => none
  | c :: cs =>
    if c.tag == tag && attrOf c "w:id" == some cid then some c
    else
      match findDescId tag cid c with
      | some r => some r
      | none => findDescIdL tag cid cs
end

mutual
/-- Texts of the `t` elements of a subtree INCLUDING the root node,
in document order, keeping only truthy (non-empty) texts — this is the
`for t in elem.findall(".//t"): if t.text:` pattern. -/
def tTextsNode : Xml → List String
  | .node tg _ tx cs =>
    (if tg == "t" then
       match tx with
       | some s => if s ≠ "" then [s] else []
       | none => []
     else []) ++ tTextsL cs

/-- Worker of `tTextsNode` over a sibling list. -/
def tTextsL : List Xml → List String
  | [] => []
  | c :: cs => tTextsNode c ++ tTextsL cs
end

/-- Truthy texts of the proper `t` descendants of an element
(`elem.findall(".//t")` never yields `elem` itself). -/
def tTexts (e : Xml) : List String := tTextsL e.children

mutual
/-- Count the elements of a tree (the root included) with a given tag. -/
def countTag (t : String) : Xml → Nat
  | .node tg _ _ cs => (if tg == t then 1 else 0) + countTagL t cs

/-- Worker of `countTag` over a sibling list. -/
def countTagL (t : String) : List Xml → Nat
  | [] => 0
  | c :: cs => countTag t c + countTagL t cs
end

mutual
/-- Effect of the `for elem in root.findall(".//TAG"): parent.remove(elem)`
cleanup loops: every descendant with the given tag is removed (with its
subtree; the comment markers are childless). -/
def removeTag (t : String) : Xml → Xml
  | .node tg a tx cs => .node tg a tx (removeTagL t cs)

/-- Worker of `removeTag` over a sibling list. -/
def removeTagL (t : String) : List Xml → List Xml
  | [] => []
  | c :: cs =>
    if c.tag == t then removeTagL t cs
    else removeTag t c :: removeTagL t cs
end

mutual
/-- Update the first descendant (document order) with the given tag,
reporting whether one was found; models mutating the result of
`elem.find(".//tag")`. -/
def updateFirstDesc (tag : String) (f : Xml → Xml) : Xml → Xml × Bool
  | .node tg a tx cs =>
    let r := updateFirstDescL tag f cs
    (.node tg a tx r.1, r.2)

/-- Worker of `updateFirstDesc` over a sibling list. -/
def updateFirstDescL (tag : String) (f : Xml → Xml) : List Xml → List Xml × Bool
  | [] => ([], false)
  | c :: cs =>
    if c.tag == tag then (f c :: cs, true)
    else
      let r := updateFirstDesc tag f c
      if r.2 then (r.1 :: cs, true)
      else
        let r2 := updateFirstDescL tag f cs
        (c :: r2.1, r2.2)
end

example :
    findDesc "t" (.node "r" [] none
      [.node "rPr" [] none [], .node "t" [] (some "hi") []])
      = some (.node "t" [] (some "hi") []) := by rfl
example :
    countTag "t" (.node "p" [] none
      [.node "r" [] none [.node "t" [] (some "a") []],
       .node "t" [] none []]) = 2 := by rfl

/-- Whether an element's first `instrText` descendant has truthy text
containing `FORMCHECKBOX` (the legacy-checkbox probe used by
`_has_existing_checkbox` and `_update_existing_checkbox`). -/
def hasInstrFormcheckbox (e : Xml) : Bool :=
  match findDesc "instrText" e with
  | some i =>
    match i.text with
    | some s => s ≠ "" && containsSub s "FORMCHECKBOX"
    | none => false
  | none => false

/-- Whether any truthy `t` descendant text of an element contains one of
the four checkbox glyphs. -/
def hasGlyphAny (e : Xml) : Bool :=
  (tTexts e).any (fun s =>
    pyContainsChar s '☐' || pyContainsChar s '☑' ||
    pyContainsChar s '✓' || pyContainsChar s '□')

/-- `CommentsDocumentProcessor._has_existing_checkbox`. -/
def hasExistingCheckbox (els : List Xml) : Bool :=
  els.any (fun e => hasInstrFormcheckbox e || hasGlyphAny e)

/-- Whether the legacy branch of `_update_existing_checkbox` fires on one
element: the `instrText` probe succeeds AND the element has a `checkBox`
descendant that itself has a `default` descendant (otherwise the Python
code falls through to the glyph scan of the same element). -/
def hasLegacyHit (e : Xml) : Bool :=
  hasInstrFormcheckbox e &&
  (match findDesc "checkBox" e with
   | some cb => (findDesc "default" cb).isSome
   | none => false)

/-- The in-place legacy update: set `w:val` of the first `default`
descendant of the first `checkBox` descendant. -/
def applyLegacySet (e : Xml) (v : String) : Xml :=
  (updateFirstDesc "checkBox"
    (fun cb => (updateFirstDesc "default" (setAttr "w:val" v) cb).1) e).1

/-- Whether a `t` text triggers the glyph toggle for the requested
direction (`checked` looks for an unchecked glyph and vice versa). -/
def glyphHitText (checked : Bool) (s : String) : Bool :=
  if checked then pyContainsChar s '☐' || pyContainsChar s '□'
  else pyContainsChar s '☑' || pyContainsChar s '✓'

/-- The glyph substitution of `_update_existing_checkbox`. -/
def glyphReplace (checked : Bool) (s : String) : String :=
  if checked then pyReplace (pyReplace s "☐" "☑") "□" "✓"
  else pyReplace (pyReplace s "☑" "☐") "✓" "□"

mutual
/-- Glyph scan over a sibling list: visit each node, then its subtree,
then later siblings, toggling the first matching truthy `t` text. -/
def updateGlyphL (checked : Bool) : List Xml → List Xml × Bool
  | [] => ([], false)
  | c :: cs =>
    let r := updateGlyphNode checked c
    if r.2 then (r.1 :: cs, true)
    else
      let r2 := updateGlyphL checked cs
      (c :: r2.1, r2.2)

/-- Glyph scan of a single node (the node itself counts as a candidate
`t`, its descendants follow). -/
def updateGlyphNode (checked : Bool) : Xml → Xml × Bool
  | .node tg a tx cs =>
    if tg == "t" then
      match tx with
      | some s =>
        if s ≠ "" && glyphHitText checked s then
          (.node tg a (some (glyphReplace checked s)) cs, true)
        else
          let r := updateGlyphL checked cs
          (.node tg a tx r.1, r.2)
      | none =>
        let r := updateGlyphL checked cs
        (.node tg a tx r.1, r.2)
    else
      let r := updateGlyphL checked cs
      (.node tg a tx r.1, r.2)
end

/-- Glyph scan of the proper descendants of one element
(`elem.findall(".//t")` excludes `elem` itself). -/
def updateGlyphRun (checked : Bool) : Xml → Xml × Bool
  | .node tg a tx cs =>
    let r := updateGlyphL checked cs
    (.node tg a tx r.1, r.2)

/-- `CommentsDocumentProcessor._update_existing_checkbox`: walk the
spanned elements in order; the first legacy hit flips `w:default`
in place and stops; otherwise the first matching glyph text is swapped
in place and stops; an element without a hit is left untouched. -/
def updateExistingCheckbox (els : List Xml) (checked : Bool) : List Xml :=
  match els with
  | [] => []
  | e :: rest =>
    if hasLegacyHit e then
      applyLegacySet e (if checked then "1" else "0") :: rest
    else
      let r := updateGlyphRun checked e
      if r.2 then r.1 :: rest
      else e :: updateExistingCheckbox rest checked

/-- `CommentsDocumentProcessor._calculate_area_width`: visible character
width of the spanned elements, a tab counting as 4. -/
def charWidth (c : Char) : Nat := if c == '\t' then 4 else 1

/-- Width of one string under `charWidth`. -/
def areaWidthOfString (s : String) : Nat := (s.data.map charWidth).sum

/-- Width of the comment-bounded area (sum over the spanned elements of
the widths of their concatenated truthy `t` texts). -/
def calculateAreaWidth (els : List Xml) : Nat :=
  (els.map (fun e => areaWidthOfString (strJoin (tTexts e)))).sum

/-- `CommentsDocumentProcessor._pad_text_to_width`, a faithful transcript
including the `text[-right_spaces:]` slice of the `right` branch. -/
def padTextToWidth (text : String) (targetWidth : Nat) (align : String)
    (fillChar : Char) : String :=
  let trimmed := pyTrim text
  let leftSpaces := pyLen text - pyLen (pyTrimLeft text)
  let rightSpaces := pyLen text - pyLen (pyTrimRight text)
  if align = "left" then
    let result := pyTake text leftSpaces ++ trimmed
    let padding : Int := (targetWidth : Int) - (pyLen result : Int)
    if 0 < padding then result ++ strRepeat fillChar padding.toNat else result
  else if align = "right" then
    let padding : Int := (targetWidth : Int) - (pyLen trimmed : Int) - (rightSpaces : Int)
    if 0 < padding then
      strRepeat fillChar padding.toNat ++ trimmed ++ pySliceLast text rightSpaces
    else trimmed ++ pySliceLast text rightSpaces
  else if align = "center" then
    let total : Int := (targetWidth : Int) - (pyLen trimmed : Int)
    let leftPad : Int := Int.fdiv total 2
    let rightPad : Int := total - leftPad
    pyRepeatInt fillChar leftPad ++ trimmed ++ pyRepeatInt fillChar rightPad
  else
    let result := pyTake text leftSpaces ++ trimmed
    let padding : Int := (targetWidth : Int) - (pyLen result : Int)
    if 0 < padding then result ++ strRepeat fillChar padding.toNat else result

/-- `CommentsDocumentProcessor._detect_text_alignment`.  The Python code
climbs from the first spanned run to its nearest `w:p` ancestor; in this
embedding the enclosing parent element is passed directly (for the
documents at hand the spanned runs' parent is the paragraph). -/
def detectTextAlignment (para : Xml) : String :=
  match firstChildWithTag "pPr" para with
  | some ppr =>
    match firstChildWithTag "jc" ppr with
    | some jc =>
      match attrOf jc "w:val" with
      | some "right" => "right"
      | some "center" => "center"
      | some "both" => "justify"
      | _ => "left"
    | none => "left"
  | none => "left"


/-- `CommentsDocumentProcessor._create_text_element`: a new `r` element
with a copy of the source run's direct `rPr` child (children and
attributes copied, `rPr.text` not) and a `t` child carrying the text,
with `xml:space=preserve` when the text starts or ends with a space. -/
def createTextElement (text : String) (src : Option Xml) : Xml :=
  let rprPart : List Xml :=
    match src with
    | some s =>
      match firstChildWithTag "rPr" s with
      | some rpr => [Xml.node "rPr" rpr.attrs none rpr.children]
      | none => []
    | none => []
  let tAttrs :=
    if text ≠ "" && (pyStartsWith text " " || pyEndsWith text " ") then
      [("xml:space", "preserve")]
    else []
  Xml.node "r" [] none (rprPart ++ [Xml.node "t" tAttrs (some text) []])

/-- `CommentsDocumentProcessor._create_legacy_checkbox`: the three runs
of a fresh legacy form-field checkbox. -/
def createLegacyCheckbox (checked : Bool) : List Xml :=
  [Xml.node "r" [] none
     [Xml.node "fldChar" [("w:fldCharType", "begin")] none
        [Xml.node "ffData" [] none
           [Xml.node "enabled" [] none [],
            Xml.node "checkBox" [] none
              [Xml.node "size" [("w:val", "18")] none [],
               Xml.node "default" [("w:val", if checked then "1" else "0")] none []]]]],
   Xml.node "r" [] none
     [Xml.node "instrText" [("xml:space", "preserve")] (some " FORMCHECKBOX ") []],
   Xml.node "r" [] none
     [Xml.node "fldChar" [("w:fldCharType", "end")] none []]]

/-- Return shape of `_create_value_element`: a single element for text,
a Python LIST of runs for a checkbox (which the caller then passes to
`parent.insert`, a type error in lxml). -/
inductive ValueElems where
  | single (x : Xml)
  | multiple (xs : List Xml)

/-- `CommentsDocumentProcessor._create_value_element`. -/
def createValueElement (vt : VariableType) (value : PyVal) : ValueElems :=
  if vt = .CHECKBOX then .multiple (createLegacyCheckbox (pyTruthy value))
  else .single (createTextElement (pyStr value) none)

/-- `CommentsDocumentProcessor._replace_checkbox_content` (the rebuild
path): locate a literal `[X]` / `[ ]` in the combined text, split the
text around it, and emit prefix run, fresh legacy checkbox runs and
suffix run in place of the spanned elements. -/
def replaceCheckboxContent (mid : List Xml) (checked : Bool) : List Xml :=
  let fullText := strJoin (mid.map (fun e => strJoin (tTexts e)))
  let found : Option (Nat × String) :=
    match firstIdxSub "[X]".data fullText.data with
    | some i => some (i, "[X]")
    | none =>
      match firstIdxSub "[ ]".data fullText.data with
      | some i => some (i, "[ ]")
      | none => none
  match found with
  | none =>
    let checkboxRuns := createLegacyCheckbox checked
    let textAfter := pyTrim fullText
    checkboxRuns ++
      (if textAfter ≠ "" then
         [createTextElement (" " ++ textAfter) mid.head?]
       else [])
  | some (pos, token) =>
    let textBefore := pyTrim (pyTake fullText pos)
    let textAfter := pyTrim (pyDrop fullText (pos + pyLen token))
    let checkboxRuns := createLegacyCheckbox checked
    (if textBefore ≠ "" then
       [createTextElement textBefore mid.head?]
     else []) ++
    checkboxRuns ++
    (if textAfter ≠ "" then
       [createTextElement (" " ++ textAfter) mid.getLast?]
     else [])

/-- The text path `_replace_text_content_with_padding` produces for the
spanned elements: one new run whose text is the value padded to the
original area width under the paragraph's detected alignment. -/
def paddedTextRun (para : Xml) (mid : List Xml) (value : PyVal) : Xml :=
  createTextElement
    (padTextToWidth (pyStr value) (calculateAreaWidth mid)
      (detectTextAlignment para) ' ')
    mid.head?

/-- Non-empty-area branch of `_replace_comment_content` on the siblings
that follow the `commentRangeStart` marker: `startE` is the marker,
`mid` the spanned elements, `tailRest` everything from the
`commentRangeEnd` marker on (or `[]` when the end marker was not among
the following siblings).  Returns the new sibling list from the marker
on. -/
def replaceNonEmpty (para startE : Xml) (mid tailRest : List Xml)
    (vt : VariableType) (value : PyVal) : List Xml :=
  if vt = .CHECKBOX then
    if hasExistingCheckbox mid then
      startE :: (updateExistingCheckbox mid (pyTruthy value) ++ tailRest)
    else
      startE :: (replaceCheckboxContent mid (pyTruthy value) ++ tailRest)
  else
    startE :: paddedTextRun para mid value :: tailRest

/-- Whether an element is the `commentRangeEnd` marker with the given id. -/
def isEndMarker (cid : String) (c : Xml) : Bool :=
  c.tag == "commentRangeEnd" && attrOf c "w:id" == some cid

/-- Whether an element is the `commentRangeStart` marker with the given id. -/
def isStartMarker (cid : String) (c : Xml) : Bool :=
  c.tag == "commentRangeStart" && attrOf c "w:id" == some cid

/-- Walk the siblings after the start marker collecting
`elements_to_replace` until the end marker; `none` in the second
component means the end marker was not among the following siblings
(the Python `while` loop then ran off the end). -/
def splitAtEndMarker (cid : String) : List Xml → List Xml × Option (Xml × List Xml)
  | [] => ([], none)
  | c :: cs =>
    if isEndMarker cid c then ([], some (c, cs))
    else
      let r := splitAtEndMarker cid cs
      (c :: r.1, r.2)

/-- `_replace_comment_content` applied at the start marker's position:
returns the new sibling list from the marker on, or the Python exception
text for the two corner cases in which lxml raises. -/
def spliceTail (cid : String) (para startE : Xml) (tail : List Xml)
    (vt : VariableType) (value : PyVal) : Except String (List Xml) :=
  match splitAtEndMarker cid tail with
  | (mid, some (endE, post)) =>
    if mid.isEmpty then
      match createValueElement vt value with
      | .single x => .ok (startE :: x :: endE :: post)
      | .multiple _ => .error "TypeError: Element expected"
    else .ok (replaceNonEmpty para startE mid (endE :: post) vt value)
  | (mid, none) =>
    if mid.isEmpty then .error "ValueError: comment_end not in parent"
    else .ok (replaceNonEmpty para startE mid [] vt value)

mutual
/-- Locate the first `commentRangeStart` marker with the given id (in
document order) and rewrite its parent's children as
`_replace_comment_content` does; `none` when the subtree holds no such
marker. -/
def rewriteDoc (cid : String) (vt : VariableType) (value : PyVal) :
    Xml → Option (Except String Xml)
  | .node tg a tx cs =>
    match rewriteChildren cid vt value (.node tg a tx cs) cs with
    | none => none
    | some (.error e) => some (.error e)
    | some (.ok cs2) => some (.ok (.node tg a tx cs2))

/-- Worker of `rewriteDoc` over a sibling list; `para` is the node whose
children these are. -/
def rewriteChildren (cid : String) (vt : VariableType) (value : PyVal)
    (para : Xml) : List Xml → Option (Except String (List Xml))
  | [] => none
  | c :: cs =>
    if isStartMarker cid c then
      some (spliceTail cid para c cs vt value)
    else
      match rewriteDoc cid vt value c with
      | some (.ok c2) => some (.ok (c2 :: cs))
      | some (.error e) => some (.error e)
      | none =>
        match rewriteChildren cid vt value para cs with
        | some (.ok cs2) => some (.ok (c :: cs2))
        | some (.error e) => some (.error e)
        | none => none
end

/-- Python `rule.split('=', 1)`: the part before the first `=` and the
rejoined remainder; `none` when the rule has no `=`. -/
def splitOnceEq (rule : String) : Option (String × String) :=
  match pySplitOn rule "=" with
  | [] => none
  | [_] => none
  | p :: rest => some (p, joinSep "=" rest)

/-- Map a normalized mapping token to the date component it selects. -/
def datePartOf (day month year : String) (partition : String) : Option String :=
  if partition = "день" then some day
  else if partition = "месяц" then some month
  else if partition = "год" then some year
  else none

/-- `format_date_with_mappings` in `server/processor.py`: parse the
`DD.MM.YYYY` value (spaces removed), build the placeholder map from the
space-separated `PLACEHOLDER=(день|месяц|год)` rules and apply every
replacement to the context (or to the mapping string when no context). -/
def formatDateWithMappings (dateValue : String) (formatMappings : String)
    (context : Option String) : String :=
  let contextOr : String → String := fun alt =>
    match context with
    | some c => if c ≠ "" then c else alt
    | none => alt
  if formatMappings = "" then contextOr dateValue
  else
    let dateClean := pyReplace dateValue " " ""
    match pySplitOn dateClean "." with
    | [day, month, year] =>
      let fm := pyReplace (pyReplace formatMappings " =" "=") "= " "="
      let replacements := (pySplitWs fm).foldl
        (fun acc rule =>
          match splitOnceEq rule with
          | none => acc
          | some (ph, part) =>
            let placeholder := pyTrim ph
            let partition := pyTrim (pyLower part)
            match datePartOf day month year partition with
            | some v => if v ≠ "" then alistUpsert acc placeholder v else acc
            | none => acc)
        ([] : List (String × String))
      replacements.foldl (fun res kv => pyReplace res kv.1 kv.2)
        (contextOr formatMappings)
    | _ => contextOr dateValue

example :
    formatDateWithMappings "22.04.2004" "DD=день MM=месяц YYYY=год"
      (some "born DD.MM.YYYY") = "born 22.04.2004" := by decide

/-- One location record of a template variable (the keys of the Python
dict that the render engine reads; author and date are carried along by
the scanner but never read when rendering). -/
structure LocationR where
  comment_id : String
  context : String
  date_format_mappings : Option String
deriving DecidableEq

/-- `server/models.py` `TemplateVariable` (the fields the engine reads). -/
structure TemplateVariableR where
  name : String
  collection_var_name : Option String
  type : VariableType
  comment_ids : List String
  contexts : List String
  occurrences : Nat
  locations : List LocationR
deriving DecidableEq

/-- The per-name dict `get_collection_variables` hands the renderer:
the stored kind as its string `value` form plus the stored value. -/
structure RenderCollVar where
  typeStr : String
  value : PyVal
deriving DecidableEq

/-- `getattr(template_var, 'collection_var_name', None) or var_name`:
the template map's key equals the variable's `name` field. -/
def collName (tv : TemplateVariableR) : String :=
  match tv.collection_var_name with
  | some s => if s ≠ "" then s else tv.name
  | none => tv.name

/-- Value resolution of `_replace_comments_with_values`: caller override,
else collection variable value, else the empty string. -/
def resolveValue (overrides : List (String × PyVal))
    (collVars : List (String × RenderCollVar)) (tv : TemplateVariableR) : PyVal :=
  let cn := collName tv
  match alistLookup overrides cn with
  | some v => v
  | none =>
    match alistLookup collVars cn with
    | some cv => cv.value
    | none => .str ""

/-- Kind resolution of `_replace_comments_with_values`: the collection
variable's kind (with `TEXT` fallback on an unknown kind string), and
`TEXT` when the name has no collection variable — the template-local
declaration kind is never consulted. -/
def resolveType (collVars : List (String × RenderCollVar))
    (tv : TemplateVariableR) : VariableType :=
  match alistLookup collVars (collName tv) with
  | some cv => (variableTypeOfString cv.typeStr).getD .TEXT
  | none => .TEXT

/-- Per-location value: for a `DATE` variable with a string value and a
truthy mapping recorded at this location, the date formatting is applied
to the location's context. -/
def finalValueFor (vt : VariableType) (value : PyVal)
    (locs : List LocationR) (cid : String) : PyVal :=
  match vt, value with
  | .DATE, .str s =>
    match locs.find? (fun l => l.comment_id == cid) with
    | some l =>
      match l.date_format_mappings with
      | some m =>
        if m ≠ "" then .str (formatDateWithMappings s m (some l.context))
        else value
      | none => value
    | none => value
  | _, _ => value

/-- One location of `_replace_comments_with_values`: a missing
`commentRangeStart` or `commentRangeEnd` for the id is skipped (the
document is returned unchanged), otherwise the splice runs at the
marker's parent. -/
def processLocation (cid : String) (vt : VariableType) (value : PyVal)
    (doc : Xml) : Except String Xml :=
  if (findDescId "commentRangeStart" cid doc).isNone then .ok doc
  else if (findDescId "commentRangeEnd" cid doc).isNone then .ok doc
  else
    match rewriteDoc cid vt value doc with
    | some r => r
    | none => .ok doc

/-- The `for comment_id in template_var.comment_ids` loop. -/
def processCids (vt : VariableType) (value : PyVal) (locs : List LocationR) :
    List String → Xml → Except String Xml
  | [], doc => .ok doc
  | cid :: rest, doc =>
    match processLocation cid vt (finalValueFor vt value locs cid) doc with
    | .ok d2 => processCids vt value locs rest d2
    | .error e => .error e

/-- One iteration of the `for var_name, template_var in
template.variables.items()` loop: resolve value and kind, then process
every recorded comment id. -/
def processVariable (overrides : List (String × PyVal))
    (collVars : List (String × RenderCollVar)) (tv : TemplateVariableR)
    (doc : Xml) : Except String Xml :=
  processCids (resolveType collVars tv) (resolveValue overrides collVars tv)
    tv.locations tv.comment_ids doc

/-- The whole variable loop. -/
def processVariables (overrides : List (String × PyVal))
    (collVars : List (String × RenderCollVar)) :
    List TemplateVariableR → Xml → Except String Xml
  | [], doc => .ok doc
  | tv :: rest, doc =>
    match processVariable overrides collVars tv doc with
    | .ok d2 => processVariables overrides collVars rest d2
    | .error e => .error e

/-- The tree-wide cleanup at the end of `_replace_comments_with_values`:
remove every `commentReference`, then every `commentRangeStart`, then
every `commentRangeEnd`. -/
def cleanupCommentArtifacts (doc : Xml) : Xml :=
  removeTag "commentRangeEnd"
    (removeTag "commentRangeStart" (removeTag "commentReference" doc))

/-- `CommentsDocumentProcessor._replace_comments_with_values` on the
`document.xml` tree. -/
def replaceCommentsWithValues (overrides : List (String × PyVal))
    (collVars : List (String × RenderCollVar))
    (tvs : List TemplateVariableR) (doc : Xml) : Except String Xml :=
  match processVariables overrides collVars tvs doc with
  | .ok d => .ok (cleanupCommentArtifacts d)
  | .error e => .error e

/-- Output of a successful `render_document`: the rewritten
`document.xml` tree and the names of the entries of the repacked
archive. -/
structure RenderedOutput where
  doc : Xml
  entryNames : List String

/-- `CommentsDocumentProcessor.render_document` on an unpacked archive:
rewrite `document.xml`, delete `word/comments.xml` (the relationship
file is rewritten in place and keeps its entry name), repack everything
left in the working tree.  A raised exception aborts with no output. -/
def renderDocument (overrides : List (String × PyVal))
    (collVars : List (String × RenderCollVar))
    (tvs : List TemplateVariableR) (doc : Xml) (entries : List String) :
    Except String RenderedOutput :=
  match replaceCommentsWithValues overrides collVars tvs doc with
  | .ok d => .ok ⟨d, entries.filter (fun n => n ≠ "word/comments.xml")⟩
  | .error e => .error e

/-- `server/models.py` `VariableMetadata` (defaults as in the dataclass). -/
structure VariableMetadataR where
  display_name : String := ""
  description : String := ""
  required : Bool := false
  validation_regex : Option String := none
  default_value : PyVal := .str ""
  ui_order : Nat := 0
  category : String := "general"
deriving DecidableEq

/-- `server/models.py` `CollectionVariable` (fields the engine touches). -/
structure CollectionVariableR where
  name : String
  type : VariableType
  metadata : Option VariableMetadataR
  value : PyVal
  created_at : String
  updated_at : String
deriving DecidableEq

/-- `server/models.py` `Collection` (fields the engine touches);
`vars` models the Python `variables` field, whose name is reserved in
Lean 4. -/
structure CollectionR where
  id : String
  templates : List String
  vars : List (String × CollectionVariableR)
  updated_at : String
deriving DecidableEq

/-- `Storage.create_or_update_collection_variable`: an unknown collection
returns `False` and changes nothing; otherwise a FRESH
`CollectionVariable` (kind parsed with `TEXT` fallback, both timestamps
set to now) unconditionally replaces any existing entry of that name. -/
def createOrUpdateCollectionVariable (colls : List (String × CollectionR))
    (collectionId varName varTypeStr : String) (value : PyVal)
    (md : Option VariableMetadataR) (now : String) :
    List (String × CollectionR) × Bool :=
  match alistLookup colls collectionId with
  | none => (colls, false)
  | some coll =>
    let vt := (variableTypeOfString varTypeStr).getD .TEXT
    let cv : CollectionVariableR :=
      { name := varName, type := vt, metadata := md, value := value,
        created_at := now, updated_at := now }
    let coll2 :=
      { coll with
        vars := alistUpsert coll.vars varName cv,
        updated_at := now }
    (alistUpsert colls collectionId coll2, true)

/-- `scan_template`'s variable-name choice: the parsed name, else
`{kind}_{commentId}`. -/
def scanVarName (m : Metadata) (comment_id : String) : String :=
  if m.variable_name ≠ "" then m.variable_name
  else m.type ++ "_" ++ comment_id

/-- `scan_template`'s collection-variable-name choice (the parsed name
when present, else the generated variable name). -/
def scanCollVarName (m : Metadata) (comment_id : String) : String :=
  if m.variable_name ≠ "" then m.variable_name else scanVarName m comment_id

/-- `scan_template`'s kind choice from the parsed metadata. -/
def scanVarType (m : Metadata) : VariableType :=
  if m.type = "checkbox" then .CHECKBOX
  else if m.type = "date" then .DATE
  else .TEXT

/-- `scan_template`'s default value: `bool(default)` for a checkbox,
the parsed default otherwise. -/
def scanDefaultValue (m : Metadata) : PyVal :=
  if m.type = "checkbox" then .bool (pyTruthy m.default) else m.default

/-- The location dict `scan_template` records for one comment (the date
mapping only for date variables with a truthy parsed mapping). -/
def scanLocation (m : Metadata) (comment_id context : String) : LocationR :=
  { comment_id := comment_id,
    context := context,
    date_format_mappings :=
      if m.type = "date" ∨ m.type = "дата" then
        match m.date_format_mappings with
        | some s => if s ≠ "" then some s else none
        | none => none
      else none }

/-- The `TemplateVariable` that `scan_template` creates on the first
occurrence of a name. -/
def scanNewVariable (comment_id : String) (m : Metadata) (context : String) :
    TemplateVariableR :=
  { name := scanVarName m comment_id,
    collection_var_name := some (scanCollVarName m comment_id),
    type := scanVarType m,
    comment_ids := [comment_id],
    contexts := [context],
    occurrences := 1,
    locations := [scanLocation m comment_id context] }

/-- The registry side effect of one scanned comment: a truthy collection
id and a non-reuse declaration upsert a fresh collection variable
(exceptions from the call are swallowed by the `except Exception: pass`);
a reuse declaration, or no collection id, leaves the registry untouched. -/
def scanStepStore (collectionId : Option String) (comment_id : String)
    (m : Metadata) (colls : List (String × CollectionR)) (now : String) :
    List (String × CollectionR) :=
  match collectionId with
  | some cid =>
    if cid ≠ "" ∧ m.is_reuse = false then
      (createOrUpdateCollectionVariable colls cid
        (scanCollVarName m comment_id)
        (variableTypeValue (scanVarType m))
        (scanDefaultValue m)
        (some { display_name := m.display_name, description := m.description })
        now).1
    else colls
  | none => colls

/-- The collection-variable entry visible for `name` in a registry state. -/
def storeEntry (colls : List (String × CollectionR)) (collectionId name : String) :
    Option CollectionVariableR :=
  match alistLookup colls collectionId with
  | some coll => alistLookup coll.vars name
  | none => none

/-- `render_documents_batch`'s per-template value map: collection values
first, caller overrides upserted on top. -/
def varsToApply (collVars : List (String × RenderCollVar))
    (overrides : List (String × PyVal)) : List (String × PyVal) :=
  overrides.foldl (fun acc kv => alistUpsert acc kv.1 kv.2)
    (collVars.map (fun kv => (kv.1, kv.2.value)))

/-- The sequential render loop of `render_documents_batch`: an unknown
template id raises `ValueError`, and any exception from
`render_document` propagates — there is no per-template recovery. -/
def renderAllLoop (known : List String)
    (render : String → List (String × PyVal) → Except String String)
    (vars : List (String × PyVal)) : List String → Except String (List String)
  | [] => .ok []
  | tid :: rest =>
    if known.contains tid then
      match render tid vars with
      | .ok p =>
        match renderAllLoop known render vars rest with
        | .ok ps => .ok (p :: ps)
        | .error e => .error e
      | .error e => .error e
    else .error ("Template " ++ tid ++ " not found")

/-- `CommentsDocumentProcessor.render_documents_batch`.  The filesystem
call `render_document(tid, vars)` is abstracted as the `render`
parameter (returning the rendered file's name, or the exception text).
On success the zip holds one entry `{tid}_{filename}` per template, in
order. -/
def renderDocumentsBatch (known : List String)
    (render : String → List (String × PyVal) → Except String String)
    (collVars : List (String × RenderCollVar))
    (overrides : List (String × PyVal)) (templateIds : List String) :
    Except String (List String) :=
  match renderAllLoop known render (varsToApply collVars overrides) templateIds with
  | .error e => .error e
  | .ok paths =>
    .ok (List.zipWith (fun tid p => tid ++ "_" ++ p) templateIds paths)

mutual
/-- After removing every descendant with tag `t`, a tree whose root is
not itself tagged `t` contains no element tagged `t`. -/
theorem countTag_removeTag (t : String) (x : Xml) (h : x.tag ≠ t) :
    countTag t (removeTag t x) = 0 := by
  cases x with
  | node tg a tx cs =>
    have hcs := countTagL_removeTagL t cs
    simp [Xml.tag] at h
    simp [removeTag, countTag, hcs, h]

/-- List version of `countTag_removeTag` (no root-tag hypothesis). -/
theorem countTagL_removeTagL (t : String) (cs : List Xml) :
    countTagL t (removeTagL t cs) = 0 := by
  cases cs with
  | nil => simp [removeTagL, countTagL]
  | cons c cs2 =>
    have hcs := countTagL_removeTagL t cs2
    by_cases hc : c.tag = t
    · simp [removeTagL, hc, hcs]
    · have hcc := countTag_removeTag t c hc
      simp [removeTagL, hc, countTagL, hcc, hcs]
end

mutual
/-- Removing elements of one tag never increases the count of another. -/
theorem countTag_removeTag_le (t u : String) (x : Xml) :
    countTag t (removeTag u x) ≤ countTag t x := by
  cases x with
  | node tg a tx cs =>
    have hcs := countTagL_removeTagL_le t u cs
    simp only [removeTag, countTag]
    exact Nat.add_le_add_left hcs _

/-- List version of `countTag_removeTag_le`. -/
theorem countTagL_removeTagL_le (t u : String) (cs : List Xml) :
    countTagL t (removeTagL u cs) ≤ countTagL t cs := by
  cases cs with
  | nil => simp [removeTagL, countTagL]
  | cons c cs2 =>
    have hcs := countTagL_removeTagL_le t u cs2
    by_cases hc : c.tag = u
    · have h1 : removeTagL u (c :: cs2) = removeTagL u cs2 := by
        simp [removeTagL, hc]
      have h2 : countTagL t (c :: cs2) = countTag t c + countTagL t cs2 := rfl
      rw [h1, h2]
      exact le_trans hcs (Nat.le_add_left _ _)
    · have hcc := countTag_removeTag_le t u c
      have h1 : removeTagL u (c :: cs2) = removeTag u c :: removeTagL u cs2 := by
        simp [removeTagL, hc]
      have h2 : countTagL t (removeTag u c :: removeTagL u cs2)
          = countTag t (removeTag u c) + countTagL t (removeTagL u cs2) := rfl
      have h3 : countTagL t (c :: cs2) = countTag t c + countTagL t cs2 := rfl
      rw [h1, h2, h3]
      exact Nat.add_le_add hcc hcs
end

/-- A zero count is preserved by removing another tag. -/
theorem countTag_removeTag_zero (t u : String) (x : Xml)
    (h : countTag t x = 0) : countTag t (removeTag u x) = 0 :=
  Nat.le_zero.mp (h ▸ countTag_removeTag_le t u x)

/-- `removeTag` keeps the root's tag. -/
theorem removeTag_tag (t : String) (x : Xml) : (removeTag t x).tag = x.tag := by
  cases x with
  | node tg a tx cs => rfl

/-- After the comment-artifact cleanup, a tree whose root is none of the
three marker tags contains no `commentReference`, `commentRangeStart`
or `commentRangeEnd` element. -/
theorem cleanup_counts (doc : Xml)
    (h1 : doc.tag ≠ "commentRangeStart") (h2 : doc.tag ≠ "commentRangeEnd")
    (h3 : doc.tag ≠ "commentReference") :
    countTag "commentRangeStart" (cleanupCommentArtifacts doc) = 0 ∧
    countTag "commentRangeEnd" (cleanupCommentArtifacts doc) = 0 ∧
    countTag "commentReference" (cleanupCommentArtifacts doc) = 0 := by
  unfold cleanupCommentArtifacts
  refine ⟨?_, ?_, ?_⟩
  · apply countTag_removeTag_zero
    apply countTag_removeTag
    rw [removeTag_tag]
    exact h1
  · apply countTag_removeTag
    rw [removeTag_tag, removeTag_tag]
    exact h2
  · apply countTag_removeTag_zero
    apply countTag_removeTag_zero
    apply countTag_removeTag
    exact h3

/-- `rewriteDoc` rewrites children only: a successful result keeps the
root's tag. -/
theorem rewriteDoc_tag (cid : String) (vt : VariableType) (value : PyVal)
    (x r : Xml) (h : rewriteDoc cid vt value x = some (.ok r)) :
    r.tag = x.tag := by
  cases x with
  | node tg a tx cs =>
    simp only [rewriteDoc] at h
    rcases hrw : rewriteChildren cid vt value (Xml.node tg a tx cs) cs with _ | er
    · rw [hrw] at h
      simp at h
    · rcases er with e | cs2
      · rw [hrw] at h
        simp at h
      · rw [hrw] at h
        simp only [Option.some.injEq, Except.ok.injEq] at h
        rw [← h]
        rfl

/-- `processLocation` keeps the root's tag on success. -/
theorem processLocation_tag (cid : String) (vt : VariableType) (value : PyVal)
    (doc d : Xml) (h : processLocation cid vt value doc = .ok d) :
    d.tag = doc.tag := by
  unfold processLocation at h
  by_cases h1 : (findDescId "commentRangeStart" cid doc).isNone
  · rw [if_pos h1] at h
    cases h
    rfl
  · rw [if_neg h1] at h
    by_cases h2 : (findDescId "commentRangeEnd" cid doc).isNone
    · rw [if_pos h2] at h
      cases h
      rfl
    · rw [if_neg h2] at h
      rcases hrw : rewriteDoc cid vt value doc with _ | er
      · simp only [hrw] at h
        cases h
        rfl
      · simp only [hrw] at h
        cases er with
        | error e => simp at h
        | ok r =>
          injection h with hrd
          subst hrd
          exact rewriteDoc_tag cid vt value doc r hrw

/-- `processCids` keeps the root's tag on success. -/
theorem processCids_tag (vt : VariableType) (value : PyVal)
    (locs : List LocationR) (cids : List String) (doc d : Xml)
    (h : processCids vt value locs cids doc = .ok d) : d.tag = doc.tag := by
  induction cids generalizing doc with
  | nil =>
    unfold processCids at h
    cases h
    rfl
  | cons cid rest ih =>
    unfold processCids at h
    rcases hp : processLocation cid vt (finalValueFor vt value locs cid) doc
      with e | d2
    · simp only [hp] at h
      cases h
    · simp only [hp] at h
      have hrest := ih d2 h
      rw [hrest]
      exact processLocation_tag _ _ _ _ _ hp

/-- `processVariables` keeps the root's tag on success. -/
theorem processVariables_tag (overrides : List (String × PyVal))
    (collVars : List (String × RenderCollVar)) (tvs : List TemplateVariableR)
    (doc d : Xml) (h : processVariables overrides collVars tvs doc = .ok d) :
    d.tag = doc.tag := by
  induction tvs generalizing doc with
  | nil =>
    unfold processVariables at h
    cases h
    rfl
  | cons tv rest ih =>
    unfold processVariables at h
    rcases hp : processVariable overrides collVars tv doc with e | d2
    · simp only [hp] at h
      cases h
    · simp only [hp] at h
      have hrest := ih d2 h
      rw [hrest]
      exact processCids_tag _ _ _ _ _ _ hp

/-- `updateExistingCheckbox` never adds or removes an element. -/
theorem updateExistingCheckbox_length (els : List Xml) (checked : Bool) :
    (updateExistingCheckbox els checked).length = els.length := by
  induction els with
  | nil => rfl
  | cons e rest ih =>
    by_cases h : hasLegacyHit e
    · simp [updateExistingCheckbox, h]
    · by_cases h2 : (updateGlyphRun checked e).2
      · simp [updateExistingCheckbox, h, h2]
      · simp [updateExistingCheckbox, h, h2, ih]

/-- Looking up the upserted key yields the fresh value. -/
theorem alistLookup_upsert_self {α : Type} (l : List (String × α))
    (k : String) (v : α) : alistLookup (alistUpsert l k v) k = some v := by
  induction l with
  | nil => simp [alistUpsert, alistLookup, List.find?]
  | cons p rest ih =>
    by_cases h : p.1 = k
    · simp [alistUpsert, alistLookup, List.find?, h]
    · have hfind : (p.1 == k) = false := beq_eq_false_iff_ne.mpr h
      have e1 : alistUpsert (p :: rest) k v = p :: alistUpsert rest k v := by
        simp [alistUpsert, hfind]
      have e2 : alistLookup (p :: alistUpsert rest k v) k
          = alistLookup (alistUpsert rest k v) k := by
        simp [alistLookup, List.find?_cons, hfind]
      rw [e1, e2]
      exact ih

/-- `VariableType` string round-trip. -/
theorem variableTypeOfString_value (t : VariableType) :
    variableTypeOfString (variableTypeValue t) = some t := by
  cases t <;> rfl

/-- C1 (counterexample): a variable whose declaration parsed the default
`"abc"` at scan time resolves to the EMPTY string — not to the declared
default — when the caller supplies no override and the collection has no
shared variable of that name.  The template record does not even store
the default; only the collection store (populated as a scan side effect)
can carry it to render time. -/
theorem c1_counterexample :
    scanDefaultValue (extractMetadata "text\\\\name\\\\abc") = .str "abc" ∧
    resolveValue [] []
        (scanNewVariable "1" (extractMetadata "text\\\\name\\\\abc") "ctx")
      = .str "" ∧
    PyVal.str "" ≠ PyVal.str "abc" :=
  ⟨by decide, by decide, by decide⟩

/-- C1 (amended): the render-time value precedence is caller override →
collection shared value → EMPTY STRING; the declaration's parsed default
never enters the render-time resolution directly. -/
theorem c1_resolution_precedence (overrides : List (String × PyVal))
    (collVars : List (String × RenderCollVar)) (tv : TemplateVariableR) :
    (∀ v, alistLookup overrides (collName tv) = some v →
       resolveValue overrides collVars tv = v) ∧
    (∀ cv, alistLookup overrides (collName tv) = none →
       alistLookup collVars (collName tv) = some cv →
       resolveValue overrides collVars tv = cv.value) ∧
    (alistLookup overrides (collName tv) = none →
     alistLookup collVars (collName tv) = none →
     resolveValue overrides collVars tv = .str "") := by
  refine ⟨?_, ?_, ?_⟩
  · intro v h
    simp only [resolveValue, h]
  · intro cv h1 h2
    simp only [resolveValue, h1, h2]
  · intro h1 h2
    simp only [resolveValue, h1, h2]

/-- The variable scanned from the comment `text\name\abc` (C1 data). -/
def tvC1 : TemplateVariableR :=
  scanNewVariable "1" (extractMetadata "text\\\\name\\\\abc") "ctx"

/-- C1 (witness): the three precedence levels at concrete inputs. -/
theorem c1_witness :
    resolveValue [("name", .str "override")]
        [("name", ⟨"text", .str "shared"⟩)] tvC1 = .str "override" ∧
    resolveValue [] [("name", ⟨"text", .str "shared"⟩)] tvC1 = .str "shared" ∧
    resolveValue [] [] tvC1 = .str "" :=
  ⟨(c1_resolution_precedence _ _ tvC1).1 _ (by decide),
   (c1_resolution_precedence _ _ tvC1).2.1 ⟨"text", .str "shared"⟩
     (by decide) (by decide),
   (c1_resolution_precedence _ _ tvC1).2.2 (by decide) (by decide)⟩

/-- C2: evaluating `_pad_text_to_width` at the spec's own example.  Left
alignment is as specified (`"Bob"` + 7 spaces), but right alignment
yields 7 spaces + `"BobBob"` (length 13): with a value that has no
trailing whitespace, `right_spaces == 0`, and the Python slice
`text[-0:]` is the entire string, so the value is appended twice.  The
width computation itself (tab = 4) is as specified. -/
theorem c2_padding_right_alignment_bug :
    padTextToWidth "Bob" 10 "left" ' ' = "Bob       " ∧
    padTextToWidth "Bob" 10 "right" ' ' = "       BobBob" ∧
    pyLen (padTextToWidth "Bob" 10 "right" ' ') = 13 ∧
    calculateAreaWidth [Xml.node "r" [] none [Xml.node "t" [] (some "ab\tcd") []]]
      = 8 :=
  ⟨by decide, by decide, by decide, by decide⟩

/-- Render behaviour used by the C3 counterexample: template `t2` fails
(missing source file), the others render fine. -/
def renderC3 : String → List (String × PyVal) → Except String String :=
  fun tid _ => if tid = "t2" then .error "missing source file" else .ok (tid ++ ".docx")

/-- C3 (counterexample): in a batch of three templates where only `t2`
fails, the whole batch fails with `t2`'s error — no zip with the two
successful entries is produced, contradicting best-effort semantics. -/
theorem c3_counterexample :
    renderC3 "t1" (varsToApply [] []) = .ok "t1.docx" ∧
    renderC3 "t3" (varsToApply [] []) = .ok "t3.docx" ∧
    renderDocumentsBatch ["t1", "t2", "t3"] renderC3 [] [] ["t1", "t2", "t3"]
      = .error "missing source file" :=
  ⟨rfl, rfl, rfl⟩

/-- C3 (amended): the batch is all-or-nothing — when every template id is
known and renders, the zip has one `{tid}_{filename}` entry per template
in order; the first failure (after any prefix of successes) aborts the
whole batch with that error. -/
theorem c3_batch_all_or_nothing (known : List String)
    (render : String → List (String × PyVal) → Except String String)
    (collVars : List (String × RenderCollVar))
    (overrides : List (String × PyVal)) (f : String → String) :
    (∀ tids : List String,
       (∀ tid ∈ tids, known.contains tid = true ∧
          render tid (varsToApply collVars overrides) = .ok (f tid)) →
       renderDocumentsBatch known render collVars overrides tids
         = .ok (tids.map (fun tid => tid ++ "_" ++ f tid))) ∧
    (∀ (pre post : List String) (t e : String),
       (∀ tid ∈ pre, known.contains tid = true ∧
          render tid (varsToApply collVars overrides) = .ok (f tid)) →
       known.contains t = true →
       render t (varsToApply collVars overrides) = .error e →
       renderDocumentsBatch known render collVars overrides (pre ++ t :: post)
         = .error e) := by
  have loop_ok : ∀ tids : List String,
      (∀ tid ∈ tids, known.contains tid = true ∧
         render tid (varsToApply collVars overrides) = .ok (f tid)) →
      renderAllLoop known render (varsToApply collVars overrides) tids
        = .ok (tids.map f) := by
    intro tids
    induction tids with
    | nil => intro _; rfl
    | cons tid rest ih =>
      intro h
      have h1 := h tid (List.mem_cons_self tid rest)
      have h2 : ∀ x ∈ rest, known.contains x = true ∧
          render x (varsToApply collVars overrides) = .ok (f x) :=
        fun x hx => h x (List.mem_cons_of_mem tid hx)
      unfold renderAllLoop
      rw [if_pos h1.1, h1.2, ih h2]
      rfl
  have loop_err : ∀ (pre : List String) (post : List String) (t e : String),
      (∀ tid ∈ pre, known.contains tid = true ∧
         render tid (varsToApply collVars overrides) = .ok (f tid)) →
      known.contains t = true →
      render t (varsToApply collVars overrides) = .error e →
      renderAllLoop known render (varsToApply collVars overrides)
        (pre ++ t :: post) = .error e := by
    intro pre
    induction pre with
    | nil =>
      intro post t e _ hk hr
      rw [List.nil_append]
      unfold renderAllLoop
      rw [if_pos hk, hr]
    | cons p rest ih =>
      intro post t e h hk hr
      have h1 := h p (List.mem_cons_self p rest)
      have h2 : ∀ x ∈ rest, known.contains x = true ∧
          render x (varsToApply collVars overrides) = .ok (f x) :=
        fun x hx => h x (List.mem_cons_of_mem p hx)
      have hrec := ih post t e h2 hk hr
      show renderAllLoop known render (varsToApply collVars overrides)
        (p :: (rest ++ t :: post)) = .error e
      unfold renderAllLoop
      rw [if_pos h1.1, h1.2, hrec]
  constructor
  · intro tids h
    unfold renderDocumentsBatch
    simp only [loop_ok tids h]
    rw [List.zipWith_map_right]
    rw [List.zipWith_same]
  · intro pre post t e h hk hr
    unfold renderDocumentsBatch
    simp only [loop_err pre post t e h hk hr]

/-- Render behaviour used by the C3 witness: every template renders. -/
def renderC3ok : String → List (String × PyVal) → Except String String :=
  fun tid _ => .ok (tid ++ ".docx")

/-- C3 (witness): both amended conjuncts at concrete inputs. -/
theorem c3_witness :
    renderDocumentsBatch ["a", "b"] renderC3ok [] [] ["a", "b"]
      = .ok ["a_a.docx", "b_b.docx"] ∧
    renderDocumentsBatch ["t1", "t2", "t3"] renderC3 [] [] ["t1", "t3", "t2"]
      = .error "missing source file" := by
  constructor
  · exact (c3_batch_all_or_nothing ["a", "b"] renderC3ok [] []
      (fun tid => tid ++ ".docx")).1 ["a", "b"]
      (by intro tid h
          fin_cases h <;> exact ⟨rfl, rfl⟩)
  · exact (c3_batch_all_or_nothing ["t1", "t2", "t3"] renderC3 [] []
      (fun tid => tid ++ ".docx")).2 ["t1", "t3"] [] "t2" "missing source file"
      (by intro tid h
          fin_cases h <;> exact ⟨rfl, rfl⟩)
      rfl rfl

/-- C4: every successful `render_document` leaves zero
`commentRangeStart`, `commentRangeEnd` and `commentReference` elements in
the output `document.xml` tree (whose root is none of the marker tags,
as `w:document` never is) and no `word/comments.xml` entry in the output
archive, whatever the input contained. -/
theorem c4_render_strips_comment_artifacts
    (overrides : List (String × PyVal)) (collVars : List (String × RenderCollVar))
    (tvs : List TemplateVariableR) (doc : Xml) (entries : List String)
    (out : RenderedOutput)
    (hok : renderDocument overrides collVars tvs doc entries = .ok out)
    (h1 : doc.tag ≠ "commentRangeStart") (h2 : doc.tag ≠ "commentRangeEnd")
    (h3 : doc.tag ≠ "commentReference") :
    countTag "commentRangeStart" out.doc = 0 ∧
    countTag "commentRangeEnd" out.doc = 0 ∧
    countTag "commentReference" out.doc = 0 ∧
    "word/comments.xml" ∉ out.entryNames := by
  unfold renderDocument replaceCommentsWithValues at hok
  rcases hpv : processVariables overrides collVars tvs doc with e | d
  · simp only [hpv] at hok
    cases hok
  · simp only [hpv] at hok
    injection hok with ho
    have hd := processVariables_tag overrides collVars tvs doc d hpv
    have hc := cleanup_counts d (by rw [hd]; exact h1) (by rw [hd]; exact h2)
      (by rw [hd]; exact h3)
    rw [← ho]
    refine ⟨hc.1, hc.2.1, hc.2.2, ?_⟩
    simp [List.mem_filter]

/-- Input document for the C4 witness: one paragraph with a comment
range pair and a comment reference, no declared variables. -/
def docC4 : Xml :=
  Xml.node "document" [] none
    [Xml.node "p" [] none
       [Xml.node "commentRangeStart" [("w:id", "1")] none [],
        Xml.node "r" [] none [Xml.node "t" [] (some "x") []],
        Xml.node "commentRangeEnd" [("w:id", "1")] none [],
        Xml.node "r" [] none [Xml.node "commentReference" [("w:id", "1")] none []]]]

/-- C4 (witness): the cleanup invariant at a concrete render. -/
theorem c4_witness :
    countTag "commentRangeStart" (cleanupCommentArtifacts docC4) = 0 ∧
    countTag "commentRangeEnd" (cleanupCommentArtifacts docC4) = 0 ∧
    countTag "commentReference" (cleanupCommentArtifacts docC4) = 0 ∧
    "word/comments.xml" ∉
      (["word/document.xml", "word/comments.xml"].filter
        (fun n => n ≠ "word/comments.xml")) :=
  c4_render_strips_comment_artifacts [] [] [] docC4
    ["word/document.xml", "word/comments.xml"]
    ⟨cleanupCommentArtifacts docC4,
     ["word/document.xml", "word/comments.xml"].filter
       (fun n => n ≠ "word/comments.xml")⟩
    (by rfl) (by decide) (by decide) (by decide)

/-- A single run carrying a complete legacy checkbox field (`instrText`
and `checkBox` inside one spanned element, the shape on which the
in-place legacy update of `_update_existing_checkbox` fires). -/
def legacyFieldRun (v : String) : Xml :=
  Xml.node "r" [] none
    [Xml.node "fldChar" [("w:fldCharType", "begin")] none
       [Xml.node "ffData" [] none
          [Xml.node "enabled" [] none [],
           Xml.node "checkBox" [] none
             [Xml.node "size" [("w:val", "18")] none [],
              Xml.node "default" [("w:val", v)] none []]]],
     Xml.node "instrText" [("xml:space", "preserve")] (some " FORMCHECKBOX ") []]

/-- A run holding one glyph-checkbox text. -/
def glyphRun (s : String) : Xml :=
  Xml.node "r" [] none [Xml.node "t" [] (some s) []]

/-- C5: toggling an existing checkbox is done in place: a legacy field
set checked then unchecked carries `w:default` `"0"` again (bit-for-bit
the original unchecked value), a glyph `☐` becomes `☑` inside the same
run and back, the element list never grows or shrinks, and when a
checkbox is detected the render takes the update path (never the
rebuild path). -/
theorem c5_checkbox_toggle_in_place :
    (∀ rest : List Xml,
       updateExistingCheckbox (legacyFieldRun "0" :: rest) true
         = legacyFieldRun "1" :: rest ∧
       updateExistingCheckbox (legacyFieldRun "1" :: rest) false
         = legacyFieldRun "0" :: rest ∧
       updateExistingCheckbox
         (updateExistingCheckbox (legacyFieldRun "0" :: rest) true) false
         = legacyFieldRun "0" :: rest) ∧
    (∀ rest : List Xml,
       updateExistingCheckbox (glyphRun "☐" :: rest) true = glyphRun "☑" :: rest ∧
       updateExistingCheckbox (glyphRun "☑" :: rest) false = glyphRun "☐" :: rest ∧
       updateExistingCheckbox
         (updateExistingCheckbox (glyphRun "☐" :: rest) true) false
         = glyphRun "☐" :: rest) ∧
    (∀ (els : List Xml) (checked : Bool),
       (updateExistingCheckbox els checked).length = els.length) ∧
    (∀ (para startE : Xml) (mid tailRest : List Xml) (value : PyVal),
       hasExistingCheckbox mid = true →
       replaceNonEmpty para startE mid tailRest .CHECKBOX value
         = startE :: (updateExistingCheckbox mid (pyTruthy value) ++ tailRest)) := by
  have hL0 : hasLegacyHit (legacyFieldRun "0") = true := by decide
  have hL1 : hasLegacyHit (legacyFieldRun "1") = true := by decide
  have hA01 : applyLegacySet (legacyFieldRun "0") "1" = legacyFieldRun "1" := by rfl
  have hA10 : applyLegacySet (legacyFieldRun "1") "0" = legacyFieldRun "0" := by rfl
  have hGno : hasLegacyHit (glyphRun "☐") = false := by decide
  have hGno2 : hasLegacyHit (glyphRun "☑") = false := by decide
  have hGc : updateGlyphRun true (glyphRun "☐") = (glyphRun "☑", true) := by rfl
  have hGu : updateGlyphRun false (glyphRun "☑") = (glyphRun "☐", true) := by rfl
  refine ⟨?_, ?_, ?_, ?_⟩
  · intro rest
    have e1 : updateExistingCheckbox (legacyFieldRun "0" :: rest) true
        = legacyFieldRun "1" :: rest := by
      simp [updateExistingCheckbox, hL0, hA01]
    have e2 : updateExistingCheckbox (legacyFieldRun "1" :: rest) false
        = legacyFieldRun "0" :: rest := by
      simp [updateExistingCheckbox, hL1, hA10]
    exact ⟨e1, e2, by rw [e1, e2]⟩
  · intro rest
    have e1 : updateExistingCheckbox (glyphRun "☐" :: rest) true
        = glyphRun "☑" :: rest := by
      simp [updateExistingCheckbox, hGno, hGc]
    have e2 : updateExistingCheckbox (glyphRun "☑" :: rest) false
        = glyphRun "☐" :: rest := by
      simp [updateExistingCheckbox, hGno2, hGu]
    exact ⟨e1, e2, by rw [e1, e2]⟩
  · exact updateExistingCheckbox_length
  · intro para startE mid tailRest value h
    simp [replaceNonEmpty, h]

/-- C5 (witness): the dispatch conjunct at a concrete spanned list. -/
theorem c5_witness :
    hasExistingCheckbox [glyphRun "☐"] = true ∧
    replaceNonEmpty (Xml.node "p" [] none [])
        (Xml.node "commentRangeStart" [("w:id", "3")] none [])
        [glyphRun "☐"] [] .CHECKBOX (.bool true)
      = Xml.node "commentRangeStart" [("w:id", "3")] none []
          :: (updateExistingCheckbox [glyphRun "☐"] (pyTruthy (.bool true)) ++ []) :=
  ⟨by decide,
   c5_checkbox_toggle_in_place.2.2.2 _ _ _ _ _ (by decide)⟩

/-- C6: every comment body ending in the delimiter parses as a reuse
reference: `is_reuse` is set, the variable name is the whitespace-
stripped text before the final delimiter, and no new declaration content
appears (kind stays `text`, default stays empty). -/
theorem c6_reuse_reference (body : String)
    (h : pyEndsWith body VARIABLE_DEFINITION_DELIMITER = true) :
    (extractMetadata body).is_reuse = true ∧
    (extractMetadata body).variable_name
      = pyTrim (pyDropRight body (pyLen VARIABLE_DEFINITION_DELIMITER)) ∧
    (extractMetadata body).type = "text" ∧
    (extractMetadata body).default = .str "" := by
  unfold extractMetadata
  rw [if_pos h]
  exact ⟨rfl, rfl, rfl, rfl⟩

/-- C6 (witness): `parse("agree\\")` is a reuse of variable `agree`
with no new declaration content. -/
theorem c6_witness :
    pyEndsWith "agree\\\\" VARIABLE_DEFINITION_DELIMITER = true ∧
    (extractMetadata "agree\\\\").is_reuse = true ∧
    (extractMetadata "agree\\\\").variable_name = "agree" ∧
    (extractMetadata "agree\\\\").type = "text" ∧
    (extractMetadata "agree\\\\").default = .str "" := by
  have h := c6_reuse_reference "agree\\\\" (by decide)
  refine ⟨by decide, h.1, ?_, h.2.2.1, h.2.2.2⟩
  rw [h.2.1]
  decide

/-- C7: a location whose comment id has no `commentRangeStart` or no
`commentRangeEnd` in the document is skipped without error — the
document is returned unchanged for that location and the remaining
locations are processed exactly as if the bad one were absent. -/
theorem c7_missing_range_pair_skipped
    (vt : VariableType) (value : PyVal) (locs : List LocationR)
    (cid : String) (rest : List String) (doc : Xml)
    (h : (findDescId "commentRangeStart" cid doc).isNone = true ∨
         (findDescId "commentRangeEnd" cid doc).isNone = true) :
    processLocation cid vt value doc = .ok doc ∧
    processCids vt value locs (cid :: rest) doc
      = processCids vt value locs rest doc := by
  have hskip : ∀ v2 : PyVal, processLocation cid vt v2 doc = .ok doc := by
    intro v2
    unfold processLocation
    rcases h with h | h
    · simp [h]
    · simp [h]
  constructor
  · exact hskip value
  · simp only [processCids]
    rw [hskip (finalValueFor vt value locs cid)]

/-- Document for the C7 witness: no comment markers at all. -/
def docC7 : Xml :=
  Xml.node "document" [] none
    [Xml.node "p" [] none [Xml.node "r" [] none [Xml.node "t" [] (some "x") []]]]

/-- C7 (witness): a dangling comment id is skipped, the remaining
(empty) location list is processed as usual. -/
theorem c7_witness :
    processLocation "9" .TEXT (.str "v") docC7 = .ok docC7 ∧
    processCids .TEXT (.str "v") [] ["9"] docC7
      = processCids .TEXT (.str "v") [] [] docC7 :=
  c7_missing_range_pair_skipped .TEXT (.str "v") [] "9" [] docC7
    (Or.inl (by decide))

/-- C8: the collection's kind is authoritative at render time — whenever
the variable's collection name has a stored collection variable whose
kind string parses, the kind used for content generation is that
collection kind, whatever kind the template-local declaration records
(the resolution never reads `tv.type`). -/
theorem c8_collection_kind_authoritative
    (collVars : List (String × RenderCollVar)) (tv : TemplateVariableR)
    (cv : RenderCollVar) (k : VariableType)
    (hcv : alistLookup collVars (collName tv) = some cv)
    (hk : variableTypeOfString cv.typeStr = some k) :
    resolveType collVars tv = k := by
  unfold resolveType
  rw [hcv]
  simp [hk]

/-- Template-local declaration for the C8 witness: locally `TEXT`. -/
def tvC8 : TemplateVariableR :=
  { name := "agree", collection_var_name := some "agree", type := .TEXT,
    comment_ids := ["1"], contexts := ["c"], occurrences := 1, locations := [] }

/-- C8 (witness): a template-local `TEXT` declaration bound to a
collection `checkbox` variable renders as a checkbox. -/
theorem c8_witness :
    tvC8.type = .TEXT ∧
    resolveType [("agree", ⟨"checkbox", .bool true⟩)] tvC8 = .CHECKBOX :=
  ⟨rfl,
   c8_collection_kind_authoritative [("agree", ⟨"checkbox", .bool true⟩)] tvC8
     ⟨"checkbox", .bool true⟩ .CHECKBOX (by decide) (by decide)⟩

/-- C9: a rendered variable with no override and no collection entry
resolves to kind `TEXT` with the empty-string value — whatever the
template-local declaration kind — and its comment-bounded area is
replaced by a single text run padded from the empty string to the
area's width, not by a checkbox. -/
theorem c9_no_collection_entry_padded_empty_text
    (overrides : List (String × PyVal)) (collVars : List (String × RenderCollVar))
    (tv : TemplateVariableR) (para startE : Xml) (mid tailRest : List Xml)
    (h1 : alistLookup overrides (collName tv) = none)
    (h2 : alistLookup collVars (collName tv) = none) :
    resolveValue overrides collVars tv = .str "" ∧
    resolveType collVars tv = .TEXT ∧
    replaceNonEmpty para startE mid tailRest (resolveType collVars tv)
        (resolveValue overrides collVars tv)
      = startE
          :: createTextElement
               (padTextToWidth "" (calculateAreaWidth mid)
                 (detectTextAlignment para) ' ')
               mid.head?
          :: tailRest := by
  have hv : resolveValue overrides collVars tv = .str "" := by
    simp only [resolveValue, h1, h2]
  have ht : resolveType collVars tv = .TEXT := by
    simp only [resolveType, h2]
  refine ⟨hv, ht, ?_⟩
  rw [hv, ht]
  rfl

/-- Template-local declaration for the C9 witness: locally a CHECKBOX. -/
def tvC9 : TemplateVariableR :=
  { name := "agree", collection_var_name := some "agree", type := .CHECKBOX,
    comment_ids := ["2"], contexts := ["c"], occurrences := 1, locations := [] }

/-- Spanned area for the C9 witness: ten visible characters. -/
def midC9 : List Xml :=
  [Xml.node "r" [] none [Xml.node "t" [] (some "0123456789") []]]

/-- C9 (witness): a template-declared checkbox without a collection
entry becomes ten spaces of padded empty text, not a checkbox. -/
theorem c9_witness :
    resolveValue [] [] tvC9 = .str "" ∧
    resolveType [] tvC9 = .TEXT ∧
    replaceNonEmpty (Xml.node "p" [] none [])
        (Xml.node "commentRangeStart" [("w:id", "2")] none []) midC9 []
        (resolveType [] tvC9) (resolveValue [] [] tvC9)
      = Xml.node "commentRangeStart" [("w:id", "2")] none []
          :: createTextElement
               (padTextToWidth "" (calculateAreaWidth midC9)
                 (detectTextAlignment (Xml.node "p" [] none [])) ' ')
               midC9.head?
          :: [] :=
  c9_no_collection_entry_padded_empty_text [] [] tvC9
    (Xml.node "p" [] none [])
    (Xml.node "commentRangeStart" [("w:id", "2")] none []) midC9 []
    (by decide) (by decide)

/-- C10: with a collection id, scanning a non-reuse declaration
unconditionally replaces the collection's shared-variable entry of that
name with a FRESH entry — value reset to the parsed default, metadata
rebuilt from the parsed display name and description, both timestamps
set to the scan time — regardless of any existing entry; a reuse
declaration leaves the registry unchanged. -/
theorem c10_scan_nonreuse_overwrites (colls : List (String × CollectionR))
    (coll : CollectionR) (collId comment_id now : String) (m : Metadata)
    (hcoll : alistLookup colls collId = some coll) (hid : collId ≠ "") :
    (m.is_reuse = false →
       storeEntry (scanStepStore (some collId) comment_id m colls now) collId
           (scanCollVarName m comment_id)
         = some { name := scanCollVarName m comment_id,
                  type := scanVarType m,
                  metadata := some { display_name := m.display_name,
                                     description := m.description },
                  value := scanDefaultValue m,
                  created_at := now, updated_at := now }) ∧
    (m.is_reuse = true →
       scanStepStore (some collId) comment_id m colls now = colls) := by
  constructor
  · intro hnr
    simp only [scanStepStore]
    rw [if_pos ⟨hid, hnr⟩]
    unfold createOrUpdateCollectionVariable
    rw [hcoll]
    unfold storeEntry
    rw [alistLookup_upsert_self]
    simp [alistLookup_upsert_self, variableTypeOfString_value]
  · intro hr
    simp only [scanStepStore]
    rw [if_neg]
    intro hcon
    rw [hr] at hcon
    exact Bool.noConfusion hcon.2

/-- Parsed non-reuse declaration for the C10 witness. -/
def mC10 : Metadata := extractMetadata "text\\\\name\\\\abc"

/-- Registry state for the C10 witness: the collection already holds a
`name` entry with a different value and older timestamps. -/
def collC10 : CollectionR :=
  { id := "c1", templates := [],
    vars := [("name", { name := "name", type := .TEXT, metadata := none,
                        value := .str "old", created_at := "t0",
                        updated_at := "t0" })],
    updated_at := "t0" }

/-- C10 (witness): the pre-existing `name` entry (value `"old"`) is
replaced by a fresh entry with the parsed default and new timestamps;
a reuse declaration leaves the registry as it was. -/
theorem c10_witness :
    mC10.is_reuse = false ∧
    storeEntry (scanStepStore (some "c1") "1" mC10 [("c1", collC10)] "t1") "c1"
        (scanCollVarName mC10 "1")
      = some { name := scanCollVarName mC10 "1",
               type := scanVarType mC10,
               metadata := some { display_name := mC10.display_name,
                                  description := mC10.description },
               value := scanDefaultValue mC10,
               created_at := "t1", updated_at := "t1" } ∧
    (extractMetadata "agree2\\\\").is_reuse = true ∧
    scanStepStore (some "c1") "2" (extractMetadata "agree2\\\\")
        [("c1", collC10)] "t1"
      = [("c1", collC10)] :=
  ⟨by decide,
   (c10_scan_nonreuse_overwrites [("c1", collC10)] collC10 "c1" "1" "t1" mC10
     (by decide) (by decide)).1 (by decide),
   by decide,
   (c10_scan_nonreuse_overwrites [("c1", collC10)] collC10 "c1" "2" "t1"
     (extractMetadata "agree2\\\\") (by decide) (by decide)).2 (by decide)⟩
